import Mathlib

/-!
Shallow embedding of the HTN planner in `htn/Planner.h`, `htn/optional.h`
and the dinner example domain in `htn/main.cpp`.

Every C++ function that takes `State&` is modelled as a Lean function
returning the caller-visible state together with its result; a C++
function that takes `State` by value returns the caller's state
unchanged (the copy is threaded internally and discarded on return).
The trace sink is modelled as the list of events the engine emits.
-/

namespace HTN

/-- Mirror of `optional<T>` in `htn/optional.h`: a value together with a
condition flag; the default-constructed optional holds `T()` and
`false`. -/
structure Copt (α : Type) where
  val : α
  cond : Bool
deriving Repr, DecidableEq

/-- Mirror of `optional<T>::get`: returns the stored value together with
the condition that the `assert(m_condition)` inside `get` checks; the
assertion fires exactly when the second component is `false`. -/
def Copt.getf {α : Type} (o : Copt α) : α × Bool :=
  (o.val, o.cond)

/-- Mirror of `make_optional(v)`. -/
def mkOpt {α : Type} (v : α) : Copt α :=
  ⟨v, true⟩

/-- The failed result `optional<Plan>()`: default-constructed vector and
condition `false` (`Planner.h` builds failures this way). -/
def noPlan {π : Type} : Copt (List π) :=
  ⟨[], false⟩

/-- One statement of a task body authored with the `_precondition` /
`_operation` / `_variable` macros: a guard reads the state, an operation
mutates it (`_variable` introduces a pure local and is inlined into the
guards and operations that mention it). -/
inductive Step (σ : Type) : Type where
  | guard : (σ → Bool) → Step σ
  | op : (σ → σ) → Step σ

mutual
/-- A task authored with `_begin NAME ... _end`, ended by exactly one of
`_primitive`, `_methods`, `_tasks`; `nullAction` mirrors the
`Domain::null_action` struct, which has no context push and returns an
empty plan. -/
inductive Task (σ π : Type) : Type where
  | primT : String → List (Step σ) → π → Task σ π
  | methodsT : String → List (Step σ) → Tasks σ π → Task σ π
  | tasksT : String → List (Step σ) → Tasks σ π → Task σ π
  | nullAction : Task σ π

/-- The nonempty list of template arguments of a `methods<...>` or
`tasks<...>` instantiation: the variadic templates in `Planner.h`
recurse on exactly this cons structure. -/
inductive Tasks (σ π : Type) : Type where
  | one : Task σ π → Tasks σ π
  | cons : Task σ π → Tasks σ π → Tasks σ π
end

/-- The events the engine emits into the `PlannerTrace` sink: overall
begin and end, context push and pop (`AutoContext`), primitive selection
and failure. -/
inductive TraceEvent (σ π : Type) : Type where
  | tbegin : TraceEvent σ π
  | tend : Copt (List π) → TraceEvent σ π
  | push : String → σ → TraceEvent σ π
  | pop : TraceEvent σ π
  | primEv : π → σ → TraceEvent σ π
  | fail : TraceEvent σ π
deriving DecidableEq

/-- Result of evaluating one task-struct `operator()` call: the returned
`optional<Plan>`, the caller-visible state after the call (the value the
caller's `State&` argument holds, or the unchanged input for a by-value
parameter), the trace events emitted during the call, and whether every
`optional::get` the engine reached was on an engaged optional. -/
structure EvalRes (σ π : Type) : Type where
  plan : Copt (List π)
  state : σ
  events : List (TraceEvent σ π)
  asserts : Bool
deriving DecidableEq

/-- Run the `_precondition` and `_operation` statements of a task body in
declared order: a false guard stops immediately (emitting the
`PLANNER_TRACE_FAIL` event of the `_precondition` macro); operations are
applied to the state and never roll back. -/
def runSteps {σ π : Type} : List (Step σ) → σ → Bool × σ × List (TraceEvent σ π)
  | [], s => (true, s, [])
  | .guard g :: rest, s => if g s then runSteps rest s else (false, s, [.fail])
  | .op f :: rest, s => runSteps rest (f s)

mutual
/-- Evaluation of one task struct's `operator()(State& state, Trace&)`:
push the context, run the body statements, dispatch on the terminal
macro, pop the context on every exit path (the `AutoContext`
destructor). -/
def evalTask {σ π : Type} : Task σ π → σ → EvalRes σ π
  | .nullAction, s => ⟨mkOpt [], s, [], true⟩
  | .primT name steps p, s =>
    let r := runSteps (π := π) steps s
    if r.1 then
      ⟨mkOpt [p], r.2.1, .push name s :: (r.2.2 ++ [.primEv p r.2.1, .pop]), true⟩
    else
      ⟨noPlan, r.2.1, .push name s :: (r.2.2 ++ [.pop]), true⟩
  | .methodsT name steps ts, s =>
    let r := runSteps steps s
    if r.1 then
      let m := evalMethods ts r.2.1 r.2.1
      ⟨m.plan, m.state, .push name s :: (r.2.2 ++ m.events ++ [.pop]), m.asserts⟩
    else
      ⟨noPlan, r.2.1, .push name s :: (r.2.2 ++ [.pop]), true⟩
  | .tasksT name steps ts, s =>
    let r := runSteps steps s
    if r.1 then
      let m := evalTasks ts r.2.1 r.2.1
      ⟨m.plan, m.state, .push name s :: (r.2.2 ++ m.events ++ [.pop]), m.asserts⟩
    else
      ⟨noPlan, r.2.1, .push name s :: (r.2.2 ++ [.pop]), true⟩

/-- Mirror of `Domain::methods`: the base overload (one template
argument, `State&`) restores `old_state` and emits a fail event when its
action fails; the variadic overload (`State&`) returns the first
success, otherwise resets the state to `old_state` and recurses. -/
def evalMethods {σ π : Type} : Tasks σ π → σ → σ → EvalRes σ π
  | .one t, s, old =>
    let r := evalTask t s
    if r.plan.cond then r
    else ⟨noPlan, old, r.events ++ [.fail], r.asserts⟩
  | .cons t ts, s, old =>
    let r := evalTask t s
    if r.plan.cond then r
    else
      let m := evalMethods ts old old
      ⟨m.plan, m.state, r.events ++ m.events, r.asserts && m.asserts⟩

/-- Mirror of `Domain::tasks`: the base overload takes `State&` and on
failure restores `old_state`; the variadic overload takes `State` BY
VALUE (`Planner.h` line 231), so the caller-visible state is always the
input state `s` — the copy is threaded through the sub-tasks and
discarded, and the `state = old_state` on its failure path assigns to
the dying local.  The two `optional::get` calls on the success path are
modelled with `Copt.getf`, which records whether the optional was
engaged. -/
def evalTasks {σ π : Type} : Tasks σ π → σ → σ → EvalRes σ π
  | .one t, s, old =>
    let r := evalTask t s
    if r.plan.cond then r
    else ⟨noPlan, old, r.events ++ [.fail], r.asserts⟩
  | .cons t ts, s, old =>
    let r := evalTask t s
    if r.plan.cond then
      let r2 := evalTasks ts r.state old
      if r2.plan.cond then
        let tailp := r2.plan.getf
        let headp := r.plan.getf
        ⟨mkOpt (headp.1 ++ tailp.1), s, r.events ++ r2.events,
          ((r.asserts && r2.asserts) && tailp.2) && headp.2⟩
      else
        ⟨noPlan, s, r.events ++ r2.events ++ [.fail], r.asserts && r2.asserts⟩
    else
      ⟨noPlan, s, r.events ++ [.fail], r.asserts⟩
end

/-- Mirror of `findPlan` (`Planner.h` line 299): the state parameter is
taken by value, so the root evaluation works on a copy of the caller's
`initialState`; the function emits begin, evaluates the root action,
emits end with the result, and returns the result unchanged.  The
working copy's final value is discarded, so the function's result
contains no state. -/
def findPlan {σ π : Type} (root : Task σ π) (initialState : σ) :
    Copt (List π) × List (TraceEvent σ π) :=
  let r := evalTask root initialState
  (r.plan, .tbegin :: (r.events ++ [.tend r.plan]))

/-!
The dinner example domain of `htn/main.cpp`, embedded task by task.
The `_variable(cost, 20)` of `order_takeout` is inlined into the guard
and operation that mention it; primitive identifiers (pointers to
`Actor` member functions) are modelled as their names.
-/

/-- Mirror of `DinnerState` in `htn/main.cpp`. -/
structure DinnerState : Type where
  actor_is_hungry : Bool
  actor_can_cook : Bool
  actor_cash : Int
  food_in_fridge : Bool
  dishes : Bool
deriving Repr, DecidableEq

/-- `order_takeout`: guard `cash >= cost` with `cost = 20`, operation
`cash -= cost`, primitive `&Actor::order_takeout`. -/
def order_takeout : Task DinnerState String :=
  .primT "order_takeout"
    [.guard (fun s => 20 ≤ s.actor_cash),
     .op (fun s => { s with actor_cash := s.actor_cash - 20 })]
    "order_takeout"

/-- `cook_dinner`: guards `actor_can_cook` and `food_in_fridge`,
operation clearing the fridge and dirtying the dishes. -/
def cook_dinner : Task DinnerState String :=
  .primT "cook_dinner"
    [.guard (fun s => s.actor_can_cook),
     .guard (fun s => s.food_in_fridge),
     .op (fun s => { s with food_in_fridge := false, dishes := true })]
    "cook_dinner"

/-- `eat_dinner`: operation clearing hunger, primitive
`&Actor::eat_dinner`. -/
def eat_dinner : Task DinnerState String :=
  .primT "eat_dinner"
    [.op (fun s => { s with actor_is_hungry := false })]
    "eat_dinner"

/-- `wash_dishes`: guard `dishes`, operation clearing it. -/
def wash_dishes : Task DinnerState String :=
  .primT "wash_dishes"
    [.guard (fun s => s.dishes), .op (fun s => { s with dishes := false })]
    "wash_dishes"

/-- `get_dinner`: `_methods(cook_dinner, order_takeout)`. -/
def get_dinner : Task DinnerState String :=
  .methodsT "get_dinner" [] (.cons cook_dinner (.one order_takeout))

/-- `clean_up`: `_methods(wash_dishes, null_action)`. -/
def clean_up : Task DinnerState String :=
  .methodsT "clean_up" [] (.cons wash_dishes (.one .nullAction))

/-- `have_dinner`: guard `actor_is_hungry`, then
`_tasks(get_dinner, eat_dinner, clean_up)`. -/
def have_dinner : Task DinnerState String :=
  .tasksT "have_dinner" [.guard (fun s => s.actor_is_hungry)]
    (.cons get_dinner (.cons eat_dinner (.one clean_up)))

/-- `watch_tv`: primitive `&Actor::watch_tv`, no guard or operation. -/
def watch_tv : Task DinnerState String :=
  .primT "watch_tv" [] "watch_tv"

/-- `do_something`: `_methods(have_dinner, watch_tv)`. -/
def do_something : Task DinnerState String :=
  .methodsT "do_something" [] (.cons have_dinner (.one watch_tv))

/-- The initial state of the fallback scenario: hungry, cannot cook,
food in the fridge, 30 cash, no dirty dishes. -/
def fallbackState : DinnerState :=
  ⟨true, false, 30, true, false⟩

/-!
Helper lemmas shared by the claim theorems.
-/

/-- When the body statements fail, the only event they emit is the
single fail event of the failing `_precondition`. -/
theorem runSteps_false_events {σ π : Type} :
    ∀ (steps : List (Step σ)) (s : σ), (runSteps (π := π) steps s).1 = false →
      (runSteps (π := π) steps s).2.2 = [TraceEvent.fail] := by
  intro steps
  induction steps with
  | nil => intro s h; simp [runSteps] at h
  | cons st rest ih =>
    intro s h
    cases st with
    | guard g =>
      by_cases hg : g s
      · simp only [runSteps, if_pos hg] at h ⊢
        exact ih s h
      · simp [runSteps, if_neg hg]
    | op f =>
      simp only [runSteps] at h ⊢
      exact ih (f s) h

/-- If every alternative of a methods dispatch fails, the caller-visible
state is restored to `old_state`. -/
theorem evalMethods_fail_state {σ π : Type} :
    ∀ (ts : Tasks σ π) (s old : σ),
      (evalMethods ts s old).plan.cond = false → (evalMethods ts s old).state = old
  | .one t, s, old, h => by
    by_cases hc : (evalTask t s).plan.cond
    · simp [evalMethods, hc] at h
    · simp [evalMethods, hc]
  | .cons t ts, s, old, h => by
    by_cases hc : (evalTask t s).plan.cond
    · simp [evalMethods, hc] at h
    · simp only [evalMethods, if_neg hc] at h ⊢
      exact evalMethods_fail_state ts old old h

mutual
/-- Every `optional::get` reached while evaluating a task is on an
engaged optional. -/
theorem evalTask_asserts {σ π : Type} :
    ∀ (t : Task σ π) (s : σ), (evalTask t s).asserts = true
  | .nullAction, _ => rfl
  | .primT name steps p, s => by
    by_cases h : (runSteps (π := π) steps s).1 <;> simp [evalTask, h]
  | .methodsT name steps ts, s => by
    by_cases h : (runSteps (π := π) steps s).1 <;>
      simp [evalTask, h, evalMethods_asserts ts]
  | .tasksT name steps ts, s => by
    by_cases h : (runSteps (π := π) steps s).1 <;>
      simp [evalTask, h, evalTasks_asserts ts]

/-- Every `optional::get` reached during a methods dispatch is on an
engaged optional. -/
theorem evalMethods_asserts {σ π : Type} :
    ∀ (ts : Tasks σ π) (s old : σ), (evalMethods ts s old).asserts = true
  | .one t, s, old => by
    by_cases h : (evalTask t s).plan.cond <;>
      simp [evalMethods, h, evalTask_asserts t]
  | .cons t ts, s, old => by
    by_cases h : (evalTask t s).plan.cond <;>
      simp [evalMethods, h, evalTask_asserts t, evalMethods_asserts ts]

/-- Every `optional::get` reached during a tasks dispatch is on an
engaged optional: `plan.get()` and `tail_plan.get()` in the variadic
overload are reached only under the tests `if (plan)` and
`if (tail_plan)`. -/
theorem evalTasks_asserts {σ π : Type} :
    ∀ (ts : Tasks σ π) (s old : σ), (evalTasks ts s old).asserts = true
  | .one t, s, old => by
    by_cases h : (evalTask t s).plan.cond <;>
      simp [evalTasks, h, evalTask_asserts t]
  | .cons t ts, s, old => by
    by_cases h : (evalTask t s).plan.cond
    · by_cases h2 : (evalTasks ts (evalTask t s).state old).plan.cond <;>
        simp [evalTasks, h, h2, Copt.getf, evalTask_asserts t, evalTasks_asserts ts]
    · simp [evalTasks, h, evalTask_asserts t]
end

/-!
Small fixture tasks over `Nat` states used by witnesses and
counterexamples.
-/

/-- Fixture: a task that mutates the state (adds 5) and then fails its
guard, so the mutation leaks to the caller through the reference while
the evaluation fails. -/
def failMut : Task Nat String :=
  .primT "failMut" [.op (fun n => n + 5), .guard (fun _ => false)] "x"

/-- Fixture: a task that always succeeds with plan `["pa"]` and no
mutation. -/
def okA : Task Nat String := .primT "okA" [] "pa"

/-- Fixture: a task that always succeeds with plan `["y"]` and no
mutation. -/
def okB : Task Nat String := .primT "okB" [] "y"

/-- Fixture: a task that increments the state and succeeds with plan
`["a"]`. -/
def tInc : Task Nat String := .primT "inc" [.op (fun n => n + 1)] "a"

/-- Fixture: a task that succeeds with plan `["b"]` and leaves the
state alone. -/
def tSkip : Task Nat String := .primT "skip" [] "b"

/-- Fixture: the two-task sequence `_tasks(tInc, tSkip)`. -/
def seqPair : Task Nat String := .tasksT "seq" [] (.cons tInc (.one tSkip))

/-- Fixture: a method-selection task whose own guard is false. -/
def guardedM : Task Nat String :=
  .methodsT "gm" [.guard (fun _ => false)] (.one okA)

/-- Fixture: a task-sequence task whose own guard is false. -/
def guardedT : Task Nat String :=
  .tasksT "gt" [.guard (fun _ => false)] (.one okA)

/-!
Claim theorems.
-/

/-- Claim C1: rollback invariant of method selection.  When the first
alternative `A` of a methods dispatch fails — directly or because of a
nested failure anywhere inside `A` — the remaining alternatives are
dispatched from the snapshot `old` captured at the dispatch entry, not
from whatever state `A` left behind; and whenever a methods dispatch
fails as a whole, the caller-visible state is restored to that
snapshot. -/
theorem methods_rollback_invariant {σ π : Type} (A : Task σ π) (rest : Tasks σ π) (old : σ) :
    ((evalTask A old).plan.cond = false →
      evalMethods (.cons A rest) old old =
        ⟨(evalMethods rest old old).plan, (evalMethods rest old old).state,
          (evalTask A old).events ++ (evalMethods rest old old).events,
          (evalTask A old).asserts && (evalMethods rest old old).asserts⟩)
    ∧ (∀ (ts : Tasks σ π) (s : σ),
        (evalMethods ts s old).plan.cond = false → (evalMethods ts s old).state = old) := by
  constructor
  · intro h
    simp [evalMethods, h]
  · intro ts s h
    exact evalMethods_fail_state ts s old h

/-- Witness for C1: `failMut` adds 5 to the state and fails, yet the
second alternative is dispatched from the entry snapshot 0, and a
dispatch whose alternatives all fail restores the state to 0. -/
theorem methods_rollback_invariant_witness :
    evalMethods (.cons failMut (.one okB)) 0 0 =
      ⟨(evalMethods (.one okB) 0 0).plan, (evalMethods (.one okB) 0 0).state,
        (evalTask failMut 0).events ++ (evalMethods (.one okB) 0 0).events,
        (evalTask failMut 0).asserts && (evalMethods (.one okB) 0 0).asserts⟩
    ∧ (evalMethods (.cons failMut (.one failMut)) 0 0).state = 0 :=
  ⟨(methods_rollback_invariant failMut (.one okB) 0).1 (by decide),
   (methods_rollback_invariant failMut (.one failMut) 0).2
     (.cons failMut (.one failMut)) 0 (by decide)⟩

/-- Claim C3: first success wins.  If the first alternative of a methods
dispatch succeeds, its result is returned as-is, and the result does not
depend on the remaining alternatives at all — so no later alternative is
evaluated even when it would also succeed. -/
theorem methods_first_success_wins {σ π : Type} (A : Task σ π) (rest : Tasks σ π) (s old : σ)
    (h : (evalTask A s).plan.cond = true) :
    evalMethods (.cons A rest) s old = evalTask A s := by
  simp [evalMethods, h]

/-- Witness for C3: both `okA` and `okB` would succeed with different
plans; the dispatch returns `okA`'s plan, never `okB`'s. -/
theorem methods_first_success_wins_witness :
    evalMethods (.cons okA (.one okB)) 0 0 = evalTask okA 0
    ∧ (evalTask okA 0).plan = mkOpt ["pa"]
    ∧ (evalTask okB 0).plan = mkOpt ["y"] :=
  ⟨methods_first_success_wins okA (.one okB) 0 0 (by decide), by decide, by decide⟩

/-- Claim C4: task-sequence failure propagation and atomicity.  If the
head of a sequence fails, the whole sequence fails without evaluating
any later sub-task (the result does not mention them) and the
caller-visible state is the pre-sequence state; if the tail dispatch
fails after a successful head, the whole sequence fails; and a tasks
dispatch that fails always leaves the caller-visible state equal to the
snapshot captured at the dispatch entry. -/
theorem tasks_failure_propagation {σ π : Type} (t : Task σ π) (ts : Tasks σ π) (s old : σ) :
    ((evalTask t s).plan.cond = false →
      evalTasks (.cons t ts) s old =
        ⟨noPlan, s, (evalTask t s).events ++ [.fail], (evalTask t s).asserts⟩)
    ∧ ((evalTasks ts (evalTask t s).state old).plan.cond = false →
        (evalTasks (.cons t ts) s old).plan.cond = false)
    ∧ (∀ us : Tasks σ π, (evalTasks us old old).plan.cond = false →
        (evalTasks us old old).state = old) := by
  refine ⟨?_, ?_, ?_⟩
  · intro h
    simp [evalTasks, h]
  · intro h
    by_cases hc : (evalTask t s).plan.cond
    · simp [evalTasks, hc, h, noPlan]
    · simp [evalTasks, hc, noPlan]
  · intro us h
    cases us with
    | one u =>
      by_cases hc : (evalTask u old).plan.cond
      · simp [evalTasks, hc] at h
      · simp [evalTasks, hc]
    | cons u us =>
      by_cases hc : (evalTask u old).plan.cond
      · by_cases h2 : (evalTasks us (evalTask u old).state old).plan.cond <;>
          simp [evalTasks, hc, h2]
      · simp [evalTasks, hc]

/-- Witness for C4: a sequence whose head fails returns the absent
result with the entry state; a sequence whose second task fails also
fails; a failing single-task dispatch restores the entry snapshot. -/
theorem tasks_failure_propagation_witness :
    evalTasks (.cons failMut (.one okB)) 0 0 =
      ⟨noPlan, 0, (evalTask failMut 0).events ++ [.fail], (evalTask failMut 0).asserts⟩
    ∧ (evalTasks (.cons okA (.one failMut)) 0 0).plan.cond = false
    ∧ (evalTasks (.one failMut) 0 0).state = 0 :=
  ⟨(tasks_failure_propagation failMut (.one okB) 0 0).1 (by decide),
   (tasks_failure_propagation okA (.one failMut) 0 0).2.1 (by decide),
   (tasks_failure_propagation okA (.one failMut) 0 0).2.2 (.one failMut) (by decide)⟩

/-- Claim C9: the variadic `tasks` overload receives its state by value,
so a sequence of two or more sub-tasks never changes the caller-visible
state even on success; a sequence of exactly one sub-task mutates the
caller's state through the reference; and a whole `_tasks` task with
two or more sub-tasks leaves the state exactly as its own
guard/operation phase left it, whatever its sub-tasks do. -/
theorem tasks_variadic_state_confined {σ π : Type} (name : String) (steps : List (Step σ))
    (t : Task σ π) (ts : Tasks σ π) (s old : σ) :
    ((evalTasks (.cons t ts) s old).state = s)
    ∧ ((evalTask t s).plan.cond = true →
        (evalTasks (.one t) s old).state = (evalTask t s).state)
    ∧ ((runSteps (π := π) steps s).1 = true →
        (evalTask (.tasksT name steps (.cons t ts)) s).state =
          (runSteps (π := π) steps s).2.1) := by
  have h1 : ∀ (v w : σ), (evalTasks (.cons t ts) v w).state = v := by
    intro v w
    by_cases hc : (evalTask t v).plan.cond
    · by_cases h2 : (evalTasks ts (evalTask t v).state w).plan.cond <;>
        simp [evalTasks, hc, h2]
    · simp [evalTasks, hc]
  refine ⟨h1 s old, ?_, ?_⟩
  · intro h
    simp [evalTasks, h]
  · intro h
    simp [evalTask, h, h1]

/-- Witness for C9: the two-task sequence leaves the caller state at 0
although its first sub-task increments it; the one-task sequence leaves
the incremented state 1; the whole `seqPair` task leaves the state at
its post-guard value 0. -/
theorem tasks_variadic_state_confined_witness :
    (evalTasks (.cons tInc (.one tSkip)) 0 99).state = 0
    ∧ (evalTasks (.one tInc) 0 99).state = 1
    ∧ (evalTask seqPair 0).state = 0 :=
  ⟨(tasks_variadic_state_confined "seq" [] tInc (.one tSkip) 0 99).1,
   by
     have h := (tasks_variadic_state_confined "seq" [] tInc (.one tSkip) 0 99).2.1 (by decide)
     rw [h]
     decide,
   (tasks_variadic_state_confined "seq" [] tInc (.one tSkip) 0 0).2.2 (by decide)⟩

/-- Claim C10: the `assert(m_condition)` inside `optional::get` can
never fire during a search: for every task, dispatch and state, every
`get` the engine reaches (the `plan.get()` and `tail_plan.get()` of the
variadic tasks overload) is on an engaged optional. -/
theorem optional_get_always_engaged {σ π : Type} (t : Task σ π) (ts : Tasks σ π) (s old : σ) :
    (evalTask t s).asserts = true
    ∧ (evalMethods ts s old).asserts = true
    ∧ (evalTasks ts s old).asserts = true :=
  ⟨evalTask_asserts t s, evalMethods_asserts ts s old, evalTasks_asserts ts s old⟩

/-- Claim C7: a primitive task (one carrying no guard or operation of
its own, the spec's model of primitives) always succeeds with the
one-element plan holding its action identifier, leaves the state
unchanged, and emits the primitive-selected event carrying the current
state between its context push and pop. -/
theorem primitive_eval {σ π : Type} (name : String) (p : π) (s : σ) :
    evalTask (.primT name [] p) s =
      ⟨mkOpt [p], s, [.push name s, .primEv p s, .pop], true⟩ := by
  simp [evalTask, runSteps]

/-- Claim C8: when a compound task's precondition phase fails, the task
emits the failure event, pops its search context, and returns the
absent result (condition `false`, carrying no error detail), for both
method-selection and task-sequence compound tasks. -/
theorem guard_failure_fails {σ π : Type} (name : String) (steps : List (Step σ))
    (ms ts : Tasks σ π) (s : σ) (h : (runSteps (π := π) steps s).1 = false) :
    evalTask (.methodsT name steps ms) s =
      ⟨noPlan, (runSteps (π := π) steps s).2.1, [.push name s, .fail, .pop], true⟩
    ∧ evalTask (.tasksT name steps ts) s =
      ⟨noPlan, (runSteps (π := π) steps s).2.1, [.push name s, .fail, .pop], true⟩ := by
  have he := runSteps_false_events (π := π) steps s h
  constructor <;> simp [evalTask, h, he]

/-- Witness for C8: the guard-false compound tasks fail with exactly the
push, fail, pop event sequence. -/
theorem guard_failure_fails_witness :
    evalTask guardedM 0 = ⟨noPlan, 0, [.push "gm" 0, .fail, .pop], true⟩
    ∧ evalTask guardedT 0 = ⟨noPlan, 0, [.push "gt" 0, .fail, .pop], true⟩ :=
  ⟨(guard_failure_fails "gm" [.guard (fun _ => false)] (.one okA) (.one okA) 0 (by decide)).1,
   (guard_failure_fails "gt" [.guard (fun _ => false)] (.one okA) (.one okA) 0 (by decide)).2⟩

/-- Claim C6: `findPlan` receives the caller's initial state by value,
so the engine only ever works on a copy and the caller's value is never
mutated; it emits the overall begin event, evaluates the root task on
the working copy, emits the end event carrying the result, and returns
the root evaluation's result unchanged. -/
theorem findPlan_contract {σ π : Type} (root : Task σ π) (s : σ) :
    (findPlan root s).1 = (evalTask root s).plan
    ∧ (findPlan root s).2 =
        .tbegin :: ((evalTask root s).events ++ [.tend (evalTask root s).plan]) :=
  ⟨rfl, rfl⟩

/-- Claim C2 fails on the code: in the two-task sequence `seqPair` both
sub-tasks succeed and the state threaded into and out of the final
sub-task is 1, yet the state the enclosing evaluation sees after the
sequence is the untouched input 0, because the variadic `tasks`
overload takes its state parameter by value. -/
theorem tasks_state_not_threaded_out :
    (evalTask seqPair 0).plan = mkOpt ["a", "b"]
    ∧ (evalTask tSkip (evalTask tInc 0).state).state = 1
    ∧ (evalTask seqPair 0).state = 0
    ∧ (0 : Nat) ≠ 1 := by
  decide

/-- Claim C5 on the code: in the fallback scenario `cook_dinner`'s guard
fails, the engine falls back to takeout and the returned plan is
`[order_takeout, eat_dinner]`, but the final planning state is the
initial state unchanged — `actor_cash` is still 30, not 10 — because
`have_dinner`'s three-task sequence runs on a by-value copy. -/
theorem fallback_scenario_eval :
    (findPlan do_something fallbackState).1 = mkOpt ["order_takeout", "eat_dinner"]
    ∧ (evalTask cook_dinner fallbackState).plan.cond = false
    ∧ (evalTask do_something fallbackState).state = fallbackState
    ∧ fallbackState.actor_cash = 30 := by
  decide

end HTN
